import Mathlib

/-!
Verification development for the bos-web-engine message-passing runtime.

JavaScript strings are modelled as `List Char`, JS `undefined`-able values
as `Option`, JS objects as Lean structures or finite maps (functions into
`Option`), and fallible operations as `Except`. Each definition embeds one
function or type of the repository source; definitions whose doc comment
starts with "Modelled from the spec:" embed behaviour whose implementation
is not part of the provided source tree and are transcribed from the
specification text instead.
-/

/-- Characters of a JavaScript string. -/
abbrev Str := List Char

/-- JS `componentId.split('##')` (ComponentMonitor, `parseComponentId`):
leftmost-first splitting on the two-character delimiter `##`. -/
def splitTok : Str → List Str
  | [] => [[]]
  | [c] => [[c]]
  | c :: d :: rest =>
    if c = '#' ∧ d = '#' then [] :: splitTok rest
    else
      match splitTok (d :: rest) with
      | [] => [[c]]
      | s :: ss => (c :: s) :: ss

/-- JS `path.split('/')` (ComponentMonitor, `parseComponentId`). -/
def splitSlash : Str → List Str
  | [] => [[]]
  | '/' :: rest => [] :: splitSlash rest
  | c :: rest =>
    match splitSlash rest with
    | [] => [[c]]
    | s :: ss => (c :: s) :: ss

/-- JS `segments.join('##')` (ComponentMonitor, `ancestors.join('##')`). -/
def joinTok : List Str → Str
  | [] => []
  | [s] => s
  | s :: rest => s ++ '#' :: '#' :: joinTok rest

/-- The `ComponentId` record of the ComponentMonitor:
`{author, name, path, id, parent: ComponentId | null}`. Fields that JS
destructuring can leave `undefined` are `Option`s. -/
inductive ComponentId where
  | mk (author : Str) (name : Option Str) (path : Str) (id : Option Str)
       (parent : Option ComponentId)

def ComponentId.decEq : (a b : ComponentId) → Decidable (a = b)
  | .mk a n p i par, .mk a2 n2 p2 i2 par2 =>
    have dpar : Decidable (par = par2) :=
      match par, par2 with
      | none, none => isTrue rfl
      | some x, some y =>
        match ComponentId.decEq x y with
        | isTrue h => isTrue (by rw [h])
        | isFalse h => isFalse (fun hh => h (Option.some.inj hh))
      | none, some _ => isFalse (by simp)
      | some _, none => isFalse (by simp)
    decidable_of_iff (a = a2 ∧ n = n2 ∧ p = p2 ∧ i = i2 ∧ par = par2)
      ⟨fun ⟨h1, h2, h3, h4, h5⟩ => by subst h1 h2 h3 h4 h5; rfl,
       fun h => by injection h with h1 h2 h3 h4 h5; exact ⟨h1, h2, h3, h4, h5⟩⟩

instance : DecidableEq ComponentId := ComponentId.decEq

/-- Number of levels in a `ComponentId`'s ancestor chain (itself included). -/
def ComponentId.csize : ComponentId → Nat
  | .mk _ _ _ _ none => 1
  | .mk _ _ _ _ (some p) => p.csize + 1

/-- Fuel-indexed body of `parseComponentId` (ComponentMonitor).  The source
recurses on `ancestors.join('##')`, a strictly shorter string, so any fuel
at least the input length makes the fuel bound unreachable:
```
const [path, id, , ...ancestors] = componentId.split('##');
const [author, , name] = path.split('/');
return { author, name, path, id, parent: parseComponentId(ancestors.join('##')) };
```
-/
def parseComponentIdAux : Nat → Str → Option ComponentId
  | 0, _ => none
  | fuel + 1, componentId =>
    if componentId = [] then none
    else
      let parts := splitTok componentId
      let path := parts.headD []
      let id := parts.get? 1
      let ancestors := parts.drop 3
      let pathParts := splitSlash path
      some (.mk (pathParts.headD []) (pathParts.get? 2) path id
        (parseComponentIdAux fuel (joinTok ancestors)))

/-- `parseComponentId` of the ComponentMonitor: `null` on an empty (falsy)
input, otherwise destructures the `##`-separated segments. -/
def parseComponentId (componentId : Str) : Option ComponentId :=
  parseComponentIdAux (componentId.length + 1) componentId

/-- Modelled from the spec: the serializer for `ComponentId` is not in the
provided source tree.  Wire form per the spec's words: "a string built by
joining path, instanceId, and the full ancestor chain with a reserved
delimiter". -/
def serializeSpecChain : ComponentId → List Str
  | .mk _ _ path id parent =>
    path :: id.getD [] :: (match parent with
      | none => []
      | some p => serializeSpecChain p)

/-- Modelled from the spec: spec-worded serializer, joining path,
instanceId, and the ancestor chain with the `##` delimiter. -/

def serializeSpec (v : ComponentId) : Str := joinTok (serializeSpecChain v)

/-- Amended wire form: each level contributes path, instanceId, and a third
reserved segment (which `parseComponentId` skips in its destructuring),
followed by the ancestor chain. -/
def serializeWireChain : ComponentId → List Str
  | .mk _ _ path id parent =>
    path :: id.getD [] :: [] :: (match parent with
      | none => []
      | some p => serializeWireChain p)

/-- Amended serializer producing the three-segments-per-level wire form. -/
def serializeWire (v : ComponentId) : Str := joinTok (serializeWireChain v)

/-- A `ComponentId` is well formed when every level has a nonempty path and
a present instance id, both free of the reserved `#` delimiter character,
and author/name agree with the path's `/`-split (author at index 0, name at
index 2), as `parseComponentId` reconstructs them. -/
def wellFormedCid : ComponentId → Bool
  | .mk author name path id parent =>
    !path.isEmpty &&
    path.all (fun c => c ≠ '#') &&
    (match id with
     | some i => i.all (fun c => c ≠ '#')
     | none => false) &&
    (author == (splitSlash path).headD []) &&
    (name == (splitSlash path).get? 2) &&
    (match parent with
     | some p => wellFormedCid p
     | none => true)

/-- A two-level component id used as concrete test data: child `a/w/n(1)`
with parent `b/w/m(2)`. -/
def cexChildCid : ComponentId :=
  .mk "b".toList (some "m".toList) "b/w/m".toList (some "2".toList) none

/-- See `cexChildCid`. -/
def cexCid : ComponentId :=
  .mk "a".toList (some "n".toList) "a/w/n".toList (some "1".toList)
    (some cexChildCid)

/-- A reconstructed JS `Error`, carrying its message
(container `PostMessageComponentCallbackResponseParams.error`). -/
structure JsError where
  message : String
  deriving DecidableEq

/-- The decoded form of a callback-response's `result` field: the
transport string is documented in both `ComponentCallbackResponse`
declarations as stringified JSON holding a value together with an error
slot (`// stringified JSON in the form of { result: any, error: string }`). -/
structure CallbackResult (α : Type) where
  value : Option α
  error : Option String
  deriving DecidableEq

/-- How a pending `CallbackRequest` (container `types.ts`: promise with
`resolver`/`rejecter`) is settled. -/
inductive RequestOutcome (α : Type) where
  | resolved (value : Option α)
  | rejected (error : JsError)
  deriving DecidableEq

/-- Modelled from the spec: the handler for a received
`component.callbackResponse` is not part of the provided source tree (only
the `CallbackRequest`/`RequestMap` types are). Per the spec: "looks up the
pending entry by requestId; `result` is a transport-encoded {value, error}
pair; on present error, rejects with a reconstructed error, else resolves
with value; removes the entry exactly once — a duplicate or late response
for an already-settled or unknown requestId is ignored, never causing a
second resolution or an error."  The pending map is modelled by its set of
outstanding requestIds; the returned option is the settlement performed
(`none` = the response was ignored). -/
def onCallbackResponse {α : Type} (pending : List String) (requestId : String)
    (result : CallbackResult α) : List String × Option (RequestOutcome α) :=
  if requestId ∈ pending then
    (pending.erase requestId,
      some (match result.error with
        | some e => .rejected ⟨e⟩
        | none => .resolved result.value))
  else (pending, none)

/-- Field names of `ComponentCallbackInvocation` in
`packages/common/src/types/messaging.ts` (lines 27-34), in declaration
order: `args`, `method`, `containerId`, `requestId`, `targetId`, `type`. -/
def commonCallbackInvocationFields : List String :=
  ["args", "method", "containerId", "requestId", "targetId", "type"]

/-- Field names of `ComponentCallbackInvocation` in
`packages/container/src/types.ts` (lines 108-115), in declaration order:
`args`, `method`, `originator`, `requestId`, `targetId`, `type`. -/
def containerCallbackInvocationFields : List String :=
  ["args", "method", "originator", "requestId", "targetId", "type"]

/-- The field set claimed for `component.callbackInvocation`:
targetId, method, args, requestId, originator, plus the literal `type`. -/
def claimedCallbackInvocationFields : List String :=
  ["targetId", "method", "args", "requestId", "originator", "type"]

/-- Field names of `ComponentCallbackResponse` in
`packages/common/src/types/messaging.ts` (lines 36-42). -/
def commonCallbackResponseFields : List String :=
  ["containerId", "requestId", "result", "targetId", "type"]

/-- Field names of `ComponentCallbackResponse` in
`packages/container/src/types.ts` (lines 131-137). -/
def containerCallbackResponseFields : List String :=
  ["componentId", "requestId", "result", "targetId", "type"]

/-- The `type` literals of the five message kinds
(`EventType` union, identical in `packages/common/src/types/messaging.ts`
lines 8-18 and `packages/container/src/types.ts` lines 29-39). -/
inductive EventType where
  | componentCallbackInvocation
  | componentCallbackResponse
  | componentDomCallback
  | componentRender
  | componentUpdate
  deriving DecidableEq

/-- `ApplicationPayload` ("payloads sent by the application to a
container", `packages/common/src/types/messaging.ts` line 66):
`ComponentUpdate | DomCallback`. -/
def applicationPayloadTypes : List EventType :=
  [.componentUpdate, .componentDomCallback]

/-- `ContainerPayload` ("payloads sent by a container to the application",
`packages/common/src/types/messaging.ts` lines 69-72):
`ComponentCallbackInvocation | ComponentCallbackResponse |
ComponentRender`. -/
def containerPayloadTypes : List EventType :=
  [.componentCallbackInvocation, .componentCallbackResponse,
    .componentRender]

/-- The two reserved callback-holding prop namespaces of the container's
`Props` interface (`packages/container/src/types.ts` lines 255-259):
`__domcallbacks` and `__componentcallbacks`. -/
def domCallbackNamespace : String := "__domcallbacks"

/-- See `domCallbackNamespace`. -/
def componentCallbackNamespace : String := "__componentcallbacks"

/-- JS `currentComponents?.[componentId]?.renderCount + 1 || 0`
(useComponents, `hooks.componentRendered`): an absent prior value makes the
addition `NaN`, and `NaN || 0` is `0`; a present value `n` yields `n + 1`
unless that sum is the falsy `0`, in which case `|| 0` still yields `0`. -/
def jsIncOrZero : Option Int → Int
  | none => 0
  | some n => if n + 1 = 0 then 0 else n + 1

/-- A component entry stored by `useComponents`' `setComponents`: the three
fields the compiler-message handler writes, plus `renderCount` (always set
by both writers). -/
structure StoredComponent where
  componentId : Option String
  componentSource : Option String
  moduleImports : Option (List (String × String))
  renderCount : Int
  deriving DecidableEq

/-- The argument object passed to `addComponent`: same shape but with
`renderCount` possibly absent (it is overriden unconditionally). -/
structure IncomingComponent where
  componentId : Option String
  componentSource : Option String
  moduleImports : Option (List (String × String))
  renderCount : Option Int

/-- The `components` state object of `useComponents`, as a finite map. -/
def Components := String → Option StoredComponent

/-- JS object spread `{...currentComponents[componentId], ...component}`:
a field present on `component` wins, otherwise the stored field (if any)
shows through. -/
def spreadMerge (old : Option StoredComponent) (c : IncomingComponent) :
    IncomingComponent :=
  { componentId := match c.componentId with
      | some v => some v
      | none => old.bind (·.componentId)
    componentSource := match c.componentSource with
      | some v => some v
      | none => old.bind (·.componentSource)
    moduleImports := match c.moduleImports with
      | some v => some v
      | none => old.bind (·.moduleImports)
    renderCount := match c.renderCount with
      | some v => some v
      | none => old.map (·.renderCount) }

/-- `addComponent` of `useComponents` (part of the repository's application
package):
```
setComponents((currentComponents) => ({
  ...currentComponents,
  [componentId]: { ...currentComponents[componentId], ...component, renderCount: 1 },
}));
```
-/
def addComponent (components : Components) (componentId : String)
    (component : IncomingComponent) : Components :=
  fun key =>
    if key = componentId then
      let merged := spreadMerge (components componentId) component
      some { componentId := merged.componentId
             componentSource := merged.componentSource
             moduleImports := merged.moduleImports
             renderCount := 1 }
    else components key

/-- `hooks.componentRendered` of `useComponents`:
```
setComponents((currentComponents) => ({
  ...currentComponents,
  [componentId]: {
    ...currentComponents[componentId],
    renderCount: currentComponents?.[componentId]?.renderCount + 1 || 0,
  },
}));
```
-/
def componentRendered (components : Components) (componentId : String) :
    Components :=
  fun key =>
    if key = componentId then
      some { componentId := (components componentId).bind (·.componentId)
             componentSource :=
               (components componentId).bind (·.componentSource)
             moduleImports := (components componentId).bind (·.moduleImports)
             renderCount :=
               jsIncOrZero ((components componentId).map (·.renderCount)) }
    else components key

/-- The compiler collaborator's response message
(`ComponentCompilerResponse` as destructured by `useComponents`):
`{componentId, componentSource, containerStyles, error, importedModules}`. -/
structure CompilerResponse where
  componentId : String
  componentSource : String
  containerStyles : Option String
  error : Option JsError
  importedModules : List (String × String)

/-- Inputs of `useComponents`' compile effect that stay fixed within one
scenario: the root component path, the validity flag computed from it, and
whether a compiler instance is present. -/
structure UCEnv where
  rootComponentPath : String
  isValidRootComponentPath : Bool
  hasCompiler : Bool

/-- State owned by `useComponents`: the components map, the error state,
the recorded root component source, appended stylesheets, the componentIds
of `execute` requests posted to the compiler, and the dependency snapshot
(`rootComponentSource`, `error`) of the last compile-effect run (the other
entries of the dependency array are fixed by the `UCEnv`). -/
structure UCState where
  components : Components
  error : Option String
  rootComponentSource : Option String
  stylesheets : List String
  compilerOutbox : List String
  prevEffectDeps : Option (Option String × Option String)

/-- The `compiler.onmessage` handler of `useComponents`: on a load error it
only surfaces the message (`setError(loadError.message); return;`);
otherwise it appends container styles if present, merges and stores the
compiled component via `addComponent`, and records the root component
source the first time the root path compiles. -/
def onCompilerMessage (st : UCState) (data : CompilerResponse)
    (rootComponentPath : String) : UCState :=
  match data.error with
  | some loadError => { st with error := some loadError.message }
  | none =>
    let st1 := match data.containerStyles with
      | some styles => { st with stylesheets := st.stylesheets ++ [styles] }
      | none => st
    let component : IncomingComponent :=
      { spreadMerge (st1.components data.componentId)
          ⟨none, none, none, none⟩ with
        componentId := some data.componentId
        componentSource := some data.componentSource
        moduleImports := some data.importedModules }
    let st2 := { st1 with
      components := addComponent st1.components data.componentId component }
    if st2.rootComponentSource = none ∧ data.componentId = rootComponentPath
    then { st2 with rootComponentSource := some data.componentId }
    else st2

/-- One React effect pass over `useComponents`' compile effect: the effect
re-runs when its dependency snapshot changed; its body bails out unless the
root path is truthy, valid, and a compiler is present, and otherwise posts
`{action: 'execute', componentId: rootComponentPath}` to the compiler. -/
def effectPass (env : UCEnv) (st : UCState) : UCState :=
  let deps := (st.rootComponentSource, st.error)
  if st.prevEffectDeps = some deps then st
  else
    let st1 := { st with prevEffectDeps := some deps }
    if env.rootComponentPath ≠ "" ∧ env.isValidRootComponentPath = true ∧
        env.hasCompiler = true then
      { st1 with compilerOutbox := st1.compilerOutbox ++
          [env.rootComponentPath] }
    else st1

/-- The environment of the concrete C6 scenario: a valid root path with a
compiler attached. -/
def c6Env : UCEnv := ⟨"acct/Root", true, true⟩

/-- The `useComponents` state right after mounting: the initial compile
effect has run (posting one `execute` for the root) and recorded its
dependency snapshot; no component has compiled yet and no error is set. -/
def c6State : UCState :=
  ⟨fun _ => none, none, none, [], ["acct/Root"], some (none, none)⟩

/-- A compiler response reporting a compile error for the root mount. -/
def c6ErrorResponse : CompilerResponse :=
  ⟨"acct/Root", "", none, some ⟨"compile failed"⟩, []⟩

/-- JS truthiness of an optional string parameter: `undefined` and the
empty string are falsy. -/
def jsTruthyStr : Option String → Bool
  | none => false
  | some s => s ≠ ""

/-- The key normalization of `SocialDb.get`:
`((key ? [key] : keys) ?? []).filter((value) => value)`. -/
def socialGetNormalizedKeys (key : Option String)
    (keys : Option (List String)) : List String :=
  (if jsTruthyStr key = true then [key.getD ""] else keys.getD []).filter
    (fun s => s ≠ "")

/-- The exact message `SocialDb.get` throws when no non-empty key is
supplied. -/
def socialGetNoKeysError : String :=
  "Must pass a valid `key` or `keys` parameter with non empty string(s)."

/-- The exact message `SocialDb.get` throws when both `blockId` and
`finality` are falsy. -/
def socialGetNoFinalityError : String :=
  "Must pass either `blockId` or `finality`"

/-- `SocialDb.get` up to the keys/finality validation: returns the list of
keys handed to the single `rpcFetch` call, or the validation `Error` the
rejected promise carries.  `finality = none` models the parameter being
omitted, in which case the JS default `'optimistic'` applies. -/
def socialGet (blockId : Option String) (key : Option String)
    (keys : Option (List String)) (finality : Option String) :
    Except String (List String) :=
  let finalityVal := finality.getD "optimistic"
  let normalizedKeys := socialGetNormalizedKeys key keys
  if normalizedKeys.length = 0 then .error socialGetNoKeysError
  else if jsTruthyStr blockId = false ∧ finalityVal = "" then
    .error socialGetNoFinalityError
  else .ok normalizedKeys

/-- One entry of the components object served by the bos loader, holding an
optional `code` property and an optional `component` property. -/
structure LocalEntry where
  code : Option String
  component : Option String
  deriving DecidableEq

/-- JS string coercion of a possibly-undefined string, as produced by
`data.components[key].code + '\x0a'` when `code` is absent. -/
def jsStringOrUndefined : Option String → String
  | some s => s
  | none => "undefined"

/-- The per-entry transformation of `fetchLocalComponents`
(SandboxWebEngine):
```
data.components[key].component = data.components[key].code + '\n';
delete data.components[key].code;
```
-/
def transformLocalEntry (e : LocalEntry) : LocalEntry :=
  { code := none
    component := some (jsStringOrUndefined e.code ++ "\n") }

/-- The dev-tools fetch status enum (`LocalFetchStatus`). -/
inductive LocalFetchStatus where
  | loading
  | success
  | error
  deriving DecidableEq

/-- `fetchLocalComponents` (SandboxWebEngine) after the fetch settles: on a
parsed response, every component entry is transformed in place and stored
with SUCCESS; on any failure the stored map is the empty object with
ERROR. -/
def fetchLocalComponents
    (response : Except String (String → Option LocalEntry)) :
    (String → Option LocalEntry) × LocalFetchStatus :=
  match response with
  | .ok data => (fun key => (data key).map transformLocalEntry, .success)
  | .error _ => (fun _ => none, .error)

theorem splitTok_ne_nil (s : Str) : splitTok s ≠ [] := by
  match s with
  | [] => simp [splitTok]
  | [c] => simp [splitTok]
  | c :: d :: rest =>
    rw [splitTok]
    split
    · simp
    · split <;> simp

theorem joinTok_cons (a : Str) (l : List Str) (h : l ≠ []) :
    joinTok (a :: l) = a ++ '#' :: '#' :: joinTok l := by
  cases l with
  | nil => exact absurd rfl h
  | cons b t => rfl

theorem joinTok_splitTok (s : Str) : joinTok (splitTok s) = s := by
  induction s using splitTok.induct with
  | case1 => simp [splitTok, joinTok]
  | case2 c => simp [splitTok, joinTok]
  | case3 c d rest h ih =>
    obtain ⟨rfl, rfl⟩ := h
    rw [splitTok, if_pos ⟨rfl, rfl⟩]
    rw [joinTok_cons _ _ (splitTok_ne_nil _), ih]
    rfl
  | case4 c d rest h hnil =>
    exact absurd hnil (splitTok_ne_nil (d :: rest))
  | case5 c d rest h s ss he ih =>
    rw [splitTok, if_neg h, he]
    simp only
    have h2 : joinTok ((c :: s) :: ss) = c :: joinTok (s :: ss) := by
      cases ss with
      | nil => rfl
      | cons e u => rfl
    rw [h2, ← he, ih]

theorem splitTok_cons_cons (c d : Char) (rest : Str)
    (h : ¬(c = '#' ∧ d = '#')) :
    splitTok (c :: d :: rest) =
      match splitTok (d :: rest) with
      | [] => [[c]]
      | s :: ss => (c :: s) :: ss := by
  rw [splitTok, if_neg h]

theorem splitTok_append_sep (a rest : Str) (ha : ∀ c ∈ a, c ≠ '#') :
    splitTok (a ++ '#' :: '#' :: rest) = a :: splitTok rest := by
  induction a with
  | nil =>
    simp only [List.nil_append]
    rw [splitTok, if_pos ⟨rfl, rfl⟩]
  | cons c a ih =>
    have hc : c ≠ '#' := ha c (List.mem_cons_self c a)
    have hleft := ih (fun x hx => ha x (List.mem_cons_of_mem c hx))
    simp only [List.cons_append]
    rcases hsplit : a ++ '#' :: '#' :: rest with _ | ⟨d, t⟩
    · exact absurd hsplit (by cases a <;> simp)
    · rw [splitTok_cons_cons c d t (fun hcd => hc hcd.1)]
      rw [← hsplit, hleft]

theorem splitTok_sep (rest : Str) :
    splitTok ('#' :: '#' :: rest) = [] :: splitTok rest := by
  have h := splitTok_append_sep [] rest (by simp)
  simpa using h

theorem csize_pos (v : ComponentId) : 0 < v.csize := by
  cases v with
  | mk a n p i par => cases par <;> simp [ComponentId.csize]

theorem parseAux_nil (fuel : Nat) : parseComponentIdAux fuel [] = none := by
  cases fuel <;> simp [parseComponentIdAux]

theorem serializeWireChain_ne_nil (v : ComponentId) :
    serializeWireChain v ≠ [] := by
  cases v with
  | mk a n p i par =>
    rw [serializeWireChain.eq_def]
    simp

theorem serializeWire_mk_none (a : Str) (n : Option Str) (path i : Str) :
    serializeWire (.mk a n path (some i) none) =
      path ++ '#' :: '#' :: (i ++ '#' :: '#' :: []) := by
  simp only [serializeWire, serializeWireChain, Option.getD_some]
  rw [joinTok_cons _ _ (by simp), joinTok_cons _ _ (by simp)]
  rfl

theorem serializeWire_mk_some (a : Str) (n : Option Str) (path i : Str)
    (p : ComponentId) :
    serializeWire (.mk a n path (some i) (some p)) =
      path ++ '#' :: '#' :: (i ++ '#' :: '#' :: ('#' :: '#' :: serializeWire p)) := by
  simp only [serializeWire, serializeWireChain, Option.getD_some]
  rw [joinTok_cons _ _ (by simp), joinTok_cons _ _ (by simp),
    joinTok_cons _ _ (serializeWireChain_ne_nil p)]
  rfl

theorem append_cons_ne_nil (path rest : Str) (h : path ≠ []) :
    path ++ rest ≠ [] := by
  cases path with
  | nil => exact absurd rfl h
  | cons c t => simp

/-- With enough fuel, `parseComponentIdAux` inverts the amended wire form on
well-formed component ids. -/
theorem parseAux_serializeWire : ∀ (fuel : Nat) (v : ComponentId),
    wellFormedCid v = true → v.csize ≤ fuel →
    parseComponentIdAux fuel (serializeWire v) = some v := by
  intro fuel
  induction fuel with
  | zero =>
    intro v _ hsz
    exact absurd hsz (by have := csize_pos v; omega)
  | succ fuel ih =>
    intro v hwf hsz
    obtain ⟨author, name, path, id, parent⟩ := v
    obtain ⟨i, rfl⟩ : ∃ i, id = some i := by
      cases id with
      | some i => exact ⟨i, rfl⟩
      | none =>
        rw [wellFormedCid.eq_def] at hwf
        simp at hwf
    cases parent with
    | none =>
      rw [wellFormedCid.eq_def] at hwf
      simp only [Bool.and_eq_true, Bool.not_eq_true', List.isEmpty_eq_false,
        beq_iff_eq, List.all_eq_true, decide_eq_true_eq] at hwf
      obtain ⟨⟨⟨⟨⟨hpne, hpnohash⟩, hid⟩, hauthor⟩, hname⟩, -⟩ := hwf
      rw [serializeWire_mk_none]
      rw [parseComponentIdAux,
        if_neg (append_cons_ne_nil path _ hpne)]
      simp only
      rw [splitTok_append_sep path _ hpnohash,
        splitTok_append_sep i _ hid]
      simp [splitTok, parseAux_nil, joinTok, hauthor, hname]
    | some p =>
      rw [wellFormedCid.eq_def] at hwf
      simp only [Bool.and_eq_true, Bool.not_eq_true', List.isEmpty_eq_false,
        beq_iff_eq, List.all_eq_true, decide_eq_true_eq] at hwf
      obtain ⟨⟨⟨⟨⟨hpne, hpnohash⟩, hid⟩, hauthor⟩, hname⟩, hparent⟩ := hwf
      rw [serializeWire_mk_some]
      rw [parseComponentIdAux,
        if_neg (append_cons_ne_nil path _ hpne)]
      simp only
      rw [splitTok_append_sep path _ hpnohash,
        splitTok_append_sep i _ hid, splitTok_sep]
      have hrec : parseComponentIdAux fuel (serializeWire p) = some p := by
        apply ih p hparent
        simp only [ComponentId.csize] at hsz
        omega
      simp [joinTok_splitTok, hrec, hauthor, hname]

/-- Each well-formed level contributes at least one character to the wire
string, so the chain depth is bounded by the wire string's length. -/
theorem csize_le_length_serializeWire :
    ∀ (v : ComponentId), wellFormedCid v = true →
      v.csize ≤ (serializeWire v).length
  | .mk author name path id parent, hwf => by
    obtain ⟨i, rfl⟩ : ∃ i, id = some i := by
      cases id with
      | some i => exact ⟨i, rfl⟩
      | none =>
        rw [wellFormedCid.eq_def] at hwf
        simp at hwf
    have hpne : path ≠ [] := by
      rw [wellFormedCid.eq_def] at hwf
      simp only [Bool.and_eq_true, Bool.not_eq_true',
        List.isEmpty_eq_false] at hwf
      exact hwf.1.1.1.1.1
    have hplen : 0 < path.length := List.length_pos.mpr hpne
    cases parent with
    | none =>
      rw [serializeWire_mk_none]
      simp only [ComponentId.csize, List.length_append, List.length_cons]
      omega
    | some p =>
      have hparent : wellFormedCid p = true := by
        rw [wellFormedCid.eq_def] at hwf
        simp only [Bool.and_eq_true] at hwf
        exact hwf.2
      have hrec := csize_le_length_serializeWire p hparent
      rw [serializeWire_mk_some]
      simp only [ComponentId.csize, List.length_append, List.length_cons]
      omega

/-- C2, counterexample: with the serializer worded exactly as the spec says
(joining path, instanceId and the ancestor chain with `##`),
`parseComponentId` does not invert it — the destructuring
`[path, id, , ...ancestors]` skips a third segment, so the parent's path is
consumed by the skipped slot and the reconstructed parent is wrong. -/
theorem parse_serializeSpec_not_inverse :
    parseComponentId (serializeSpec cexCid) ≠ some cexCid := by decide

/-- C2 (amended): for every well-formed ComponentId v — nonempty path and
present instance id free of the `#` delimiter at every level, author/name
derived from the path — parsing the wire form that joins path, instanceId,
and a third reserved segment per level with `##` before the ancestor chain
returns exactly v, ancestor order preserved. -/
theorem parse_serializeWire_roundtrip (v : ComponentId)
    (hwf : wellFormedCid v = true) :
    parseComponentId (serializeWire v) = some v := by
  apply parseAux_serializeWire
  · exact hwf
  · have h := csize_le_length_serializeWire v hwf
    omega

/-- C2, witness: the roundtrip theorem applied to the concrete two-level id
`cexCid`. -/
theorem parse_serializeWire_roundtrip_witness :
    wellFormedCid cexCid = true ∧
      parseComponentId (serializeWire cexCid) = some cexCid :=
  ⟨by decide, parse_serializeWire_roundtrip cexCid (by decide)⟩

/-- C3: `parseComponentId` is a total function into `ComponentId`-or-null —
it never throws — and null (`none`) is its only failure signal, returned
exactly on the one input the code treats as malformed: the empty (falsy)
string. -/
theorem parseComponentId_none_iff_empty (s : Str) :
    parseComponentId s = none ↔ s = [] := by
  rw [parseComponentId, parseComponentIdAux]
  by_cases h : s = []
  · simp [h]
  · simp [h]

/-- C1: a callback-response settles the matching pending entry exactly
once.  With distinct outstanding requestIds, a response for a pending id
removes that entry and settles it; redelivering the same response afterwards
is ignored (no second settlement, no state change, no error), as is any
response whose requestId is unknown. -/
theorem callbackResponse_settles_exactly_once {α : Type}
    (pending : List String) (requestId : String) (result : CallbackResult α)
    (hnd : pending.Nodup) (hmem : requestId ∈ pending) :
    requestId ∉ (onCallbackResponse pending requestId result).1 ∧
    (onCallbackResponse pending requestId result).2.isSome = true ∧
    onCallbackResponse (onCallbackResponse pending requestId result).1
        requestId result =
      ((onCallbackResponse pending requestId result).1, none) ∧
    (∀ (m : List String) (q : String), q ∉ m →
      onCallbackResponse m q result = (m, none)) := by
  have hout : requestId ∉ pending.erase requestId :=
    hnd.not_mem_erase
  refine ⟨?_, ?_, ?_, ?_⟩
  · simpa [onCallbackResponse, hmem] using hout
  · simp [onCallbackResponse, hmem]
  · simp [onCallbackResponse, hmem, hout]
  · intro m q hq
    simp [onCallbackResponse, hq]

/-- C1, witness: two distinct pending requests; the response for `r1`
settles once and its redelivery is ignored. -/
theorem callbackResponse_settles_exactly_once_witness :
    (["r1", "r2"] : List String).Nodup ∧ "r1" ∈ (["r1", "r2"] : List String) ∧
    "r1" ∉ (onCallbackResponse ["r1", "r2"] "r1"
        (⟨some 0, none⟩ : CallbackResult Nat)).1 :=
  ⟨by decide, by decide,
    (callbackResponse_settles_exactly_once ["r1", "r2"] "r1"
      (⟨some 0, none⟩ : CallbackResult Nat) (by decide) (by decide)).1⟩

/-- C5: on receipt of a callback-response for a pending requestId, whose
`result` field decodes to a value/error pair, a present error rejects the
pending request with an error reconstructed from the transported message,
and an absent error resolves it with the transported value. -/
theorem callbackResponse_settlement {α : Type}
    (pending : List String) (requestId : String) (result : CallbackResult α)
    (hmem : requestId ∈ pending) :
    (∀ e, result.error = some e →
      (onCallbackResponse pending requestId result).2 =
        some (.rejected ⟨e⟩)) ∧
    (result.error = none →
      (onCallbackResponse pending requestId result).2 =
        some (.resolved result.value)) := by
  constructor
  · intro e he
    simp [onCallbackResponse, hmem, he]
  · intro he
    simp [onCallbackResponse, hmem, he]

/-- C5, witness: an error response rejects, a success response resolves. -/
theorem callbackResponse_settlement_witness :
    "r1" ∈ (["r1"] : List String) ∧
    (onCallbackResponse ["r1"] "r1"
        (⟨none, some "boom"⟩ : CallbackResult Nat)).2 =
      some (.rejected ⟨"boom"⟩) ∧
    (onCallbackResponse ["r1"] "r1"
        (⟨some 7, none⟩ : CallbackResult Nat)).2 =
      some (.resolved (some 7)) :=
  ⟨by decide,
    (callbackResponse_settlement ["r1"] "r1"
      (⟨none, some "boom"⟩ : CallbackResult Nat) (by decide)).1 "boom" rfl,
    (callbackResponse_settlement ["r1"] "r1"
      (⟨some 7, none⟩ : CallbackResult Nat) (by decide)).2 rfl⟩

/-- C4, counterexample: not every `component.callbackInvocation`
declaration carries an `originator` field — the common-package declaration
carries `containerId` instead, so the claimed field set does not match it. -/
theorem commonCallbackInvocation_not_claimed_fields :
    ¬ (commonCallbackInvocationFields.Perm claimedCallbackInvocationFields ∧
       containerCallbackInvocationFields.Perm
         claimedCallbackInvocationFields) := by
  intro h
  have h1 := h.1.mem_iff (a := "originator")
  simp [commonCallbackInvocationFields, claimedCallbackInvocationFields]
    at h1

/-- C4 (amended): the container-side `ComponentCallbackInvocation`
declaration carries exactly the fields targetId, method, args, requestId,
originator and the literal `type`; the common-package declaration carries
the same set with `containerId` in place of `originator`. -/
theorem callbackInvocationFields_amended :
    containerCallbackInvocationFields.Perm claimedCallbackInvocationFields ∧
    commonCallbackInvocationFields.Perm
      ["targetId", "method", "args", "requestId", "containerId", "type"] := by
  constructor <;> decide

/-- C7: `component.domCallback` is an application-to-container payload and
never a container-to-application payload, and the DOM-callback handlers
live in a props namespace distinct from component-level callbacks. -/
theorem domCallback_application_to_container_only :
    EventType.componentDomCallback ∈ applicationPayloadTypes ∧
    EventType.componentDomCallback ∉ containerPayloadTypes ∧
    domCallbackNamespace ≠ componentCallbackNamespace := by
  refine ⟨by decide, by decide, by decide⟩

/-- C8: `addComponent` always stores `renderCount = 1` regardless of any
prior entry, and `componentRendered` bumps a present numeric prior
`renderCount` to its successor but writes `0` when no prior entry (hence no
numeric `renderCount`) exists for the componentId. -/
theorem renderCount_semantics (components : Components)
    (componentId : String) (component : IncomingComponent) :
    ((addComponent components componentId component) componentId).map
        (·.renderCount) = some 1 ∧
    (components componentId = none →
      ((componentRendered components componentId) componentId).map
          (·.renderCount) = some 0) ∧
    (∀ prior : StoredComponent, components componentId = some prior →
      ((componentRendered components componentId) componentId).map
          (·.renderCount) = some (prior.renderCount + 1)) := by
  refine ⟨?_, ?_, ?_⟩
  · simp [addComponent]
  · intro h
    simp [componentRendered, h, jsIncOrZero]
  · intro prior h
    simp only [componentRendered, if_pos rfl, h, Option.map_some',
      Option.map_map, jsIncOrZero]
    by_cases hz : prior.renderCount + 1 = 0
    · simp [hz]
    · simp [hz]

/-- C8, witness: a prior entry with `renderCount = 5` bumps to 6 on render,
an absent entry yields 0, and `addComponent` resets to 1. -/
theorem renderCount_semantics_witness :
    ((addComponent (fun _ => none) "x"
        ⟨some "x", some "src", some [], none⟩) "x").map (·.renderCount) =
      some 1 ∧
    ((fun _ => none : Components) "y" = none) ∧
    ((componentRendered (fun _ => none) "y") "y").map (·.renderCount) =
      some 0 :=
  ⟨(renderCount_semantics (fun _ => none) "x"
      ⟨some "x", some "src", some [], none⟩).1,
   rfl,
   (renderCount_semantics (fun _ => none) "y"
      ⟨none, none, none, none⟩).2.1 rfl⟩

/-- C6, counterexample: after the compile error for the root mount is
surfaced, the next React effect pass does issue a new `execute` request to
the compiler — the error state is part of the compile effect's dependency
array, so surfacing the error re-runs the effect, contradicting "no
automatic retry request is issued to the compiler". -/
theorem compileError_triggers_compiler_repost :
    (effectPass c6Env
        (onCompilerMessage c6State c6ErrorResponse "acct/Root")
      ).compilerOutbox ≠ c6State.compilerOutbox := by
  decide

/-- C6 (amended): a non-null compiler error is surfaced as the error state,
adds or changes no component entry, and the message handler itself posts
nothing to the compiler; siblings are untouched since the whole components
map is unchanged.  However, because the error state is in the compile
effect's dependency array, the following effect pass (when the surfaced
error actually changed the dependency snapshot, the path is valid and a
compiler is present) re-posts one `execute` request for the root component
path. -/
theorem compileError_scoped_but_reposts (st : UCState)
    (data : CompilerResponse) (e : JsError) (rootComponentPath : String)
    (herr : data.error = some e) :
    (onCompilerMessage st data rootComponentPath).components =
      st.components ∧
    (onCompilerMessage st data rootComponentPath).error = some e.message ∧
    (onCompilerMessage st data rootComponentPath).compilerOutbox =
      st.compilerOutbox ∧
    (∀ env : UCEnv,
      st.prevEffectDeps ≠ some (st.rootComponentSource, some e.message) →
      env.rootComponentPath ≠ "" → env.isValidRootComponentPath = true →
      env.hasCompiler = true →
      (effectPass env (onCompilerMessage st data rootComponentPath)
        ).compilerOutbox = st.compilerOutbox ++ [env.rootComponentPath]) := by
  refine ⟨?_, ?_, ?_, ?_⟩
  · simp [onCompilerMessage, herr]
  · simp [onCompilerMessage, herr]
  · simp [onCompilerMessage, herr]
  · intro env hdeps hpath hvalid hcomp
    simp [onCompilerMessage, herr, effectPass, hdeps, hpath, hvalid, hcomp]

/-- C6, witness: the amended theorem applied to the concrete error
scenario. -/
theorem compileError_scoped_but_reposts_witness :
    c6ErrorResponse.error = some ⟨"compile failed"⟩ ∧
    (onCompilerMessage c6State c6ErrorResponse "acct/Root").error =
      some "compile failed" :=
  ⟨rfl,
    (compileError_scoped_but_reposts c6State c6ErrorResponse
      ⟨"compile failed"⟩ "acct/Root" rfl).2.1⟩

/-- C9: when neither a non-empty `key` nor a `keys` list containing a
non-empty string is supplied, `SocialDb.get` rejects with an `Error` before
any RPC request is built; and a truthy single `key` takes precedence — the
`keys` list is ignored entirely. -/
theorem socialGet_validation (blockId : Option String) (key : Option String)
    (keys : Option (List String)) (finality : Option String) :
    (jsTruthyStr key = false → (∀ s ∈ keys.getD [], s = "") →
      socialGet blockId key keys finality = .error socialGetNoKeysError) ∧
    (∀ k : String, k ≠ "" →
      socialGetNormalizedKeys (some k) keys = [k]) := by
  constructor
  · intro hkey hkeys
    have hnorm : socialGetNormalizedKeys key keys = [] := by
      rw [socialGetNormalizedKeys, if_neg (by simp [hkey])]
      rw [List.filter_eq_nil_iff]
      intro a ha
      simp [hkeys a ha]
    simp [socialGet, hnorm]
  · intro k hk
    rw [socialGetNormalizedKeys, if_pos (by simp [jsTruthyStr, hk])]
    simp [hk]

/-- C9, witness: an all-empty `keys` list with an absent `key` rejects with
the validation error; a non-empty `key` wins over a populated `keys`
list. -/
theorem socialGet_validation_witness :
    jsTruthyStr (none : Option String) = false ∧
    socialGet none none (some ["", ""]) none = .error socialGetNoKeysError ∧
    socialGetNormalizedKeys (some "alice.near/profile")
      (some ["bob.near/profile"]) = ["alice.near/profile"] :=
  ⟨rfl,
    (socialGet_validation none none (some ["", ""]) none).1 rfl
      (by intro s hs; simpa using hs),
    (socialGet_validation none none (some ["bob.near/profile"]) none).2
      "alice.near/profile" (by decide)⟩

/-- C10: for every successfully fetched components object, each entry ends
up with its `code` property deleted and a `component` property equal to the
original code string plus a trailing newline; on fetch failure the stored
local components map is the empty object. -/
theorem fetchLocalComponents_semantics
    (data : String → Option LocalEntry) (key : String) (e : LocalEntry)
    (codeStr : String) (hentry : data key = some e)
    (hcode : e.code = some codeStr) :
    (fetchLocalComponents (.ok data)).1 key =
      some { code := none, component := some (codeStr ++ "\n") } ∧
    (fetchLocalComponents (.ok data)).2 = .success ∧
    (∀ err : String,
      (fetchLocalComponents (.error err)).1 = (fun _ => none) ∧
      (fetchLocalComponents (.error err)).2 = .error) := by
  refine ⟨?_, rfl, fun err => ⟨rfl, rfl⟩⟩
  simp [fetchLocalComponents, hentry, transformLocalEntry, hcode,
    jsStringOrUndefined]

/-- C10, witness: a one-entry components object is transformed; a failed
fetch stores the empty object. -/
theorem fetchLocalComponents_semantics_witness :
    ((fun k => if k = "acct/Widget" then
        some (⟨some "return 1;", none⟩ : LocalEntry) else none) "acct/Widget"
      = some (⟨some "return 1;", none⟩ : LocalEntry)) ∧
    (fetchLocalComponents (.ok (fun k => if k = "acct/Widget" then
        some (⟨some "return 1;", none⟩ : LocalEntry) else none))).1
      "acct/Widget" =
      some { code := none, component := some ("return 1;" ++ "\n") } :=
  ⟨by decide,
    (fetchLocalComponents_semantics
      (fun k => if k = "acct/Widget" then
        some (⟨some "return 1;", none⟩ : LocalEntry) else none)
      "acct/Widget" ⟨some "return 1;", none⟩ "return 1;" (by decide)
      rfl).1⟩
